import Mathlib

/-!
A shallow embedding, in Lean 4, of the `py-stream` library
(`src/pythonstream.py`), together with proofs settling the specification
claims about it.

Modelling conventions:
* A Python `list` holding immutable values is embedded as a Lean `List`;
  `copy.deepcopy` on such a value is the identity, so it is dropped where it
  occurs.  Its one semantically relevant occurrence — inside the `identity`
  closure of `LazyStream.__init__`, where WHEN the copy happens matters —
  is treated separately in the mutable-source model below.
* `_Transformation` stores a nullary closure `result_getter`; `then`
  (a Lean keyword, rendered here as `andThen`) wraps it in a new closure
  that first forces the old one and feeds the result to the next step.
* Python's builtin `sorted(xs, key=k, reverse=r)` is a stable ascending
  sort on keys; CPython realizes `reverse=True` by reversing the list both
  before and after the stable ascending sort.  Since the output of a stable
  sort is uniquely determined, `List.mergeSort` (stable, per its stability
  lemmas) computes the same list as CPython's timsort, and the embeddings
  `pysortedKey`/`pysortedNat` below use exactly the reverse/sort/reverse
  scheme.
* Code paths whose Python execution can raise are embedded in `Except`:
  user-callback failures use an abstract error type `ε`, while the
  library's own `assert isinstance(...)` failures and attribute lookups on
  non-streams use the concrete `PyErr` type.
* External mutation of a source collection is modelled by a time-indexed
  family of contents (`MutSrc`): a Python list variable is a reference, and
  reading it at instant `t` yields whatever the external code left there.
-/

namespace PyStream

open List

/-- Errors raised by the library code itself (as opposed to user callbacks):
`assert` failures and missing-attribute failures. -/
inductive PyErr : Type where
  | assertionError : PyErr
  | attributeError : PyErr
deriving DecidableEq

/-! ## The pure embedding of `_Transformation` (src/pythonstream.py:172-192) -/

/-- `_Transformation`: wraps a nullary closure producing the evaluated
contents.  Pure fragment: every callback involved is total. -/
structure Transformation (α : Type) : Type where
  result_getter : Unit → List α

/-- `_Transformation.get`: force the stored closure. -/
def Transformation.get (t : Transformation α) : List α :=
  t.result_getter ()

/-- `_Transformation.then` (spelled `andThen`: `then` is a Lean keyword):
build a closure that forces `self`, then applies `next_func` to the
intermediate result.  Nothing is evaluated at composition time. -/
def Transformation.andThen (t : Transformation α)
    (next_func : List α → List β) : Transformation β :=
  Transformation.mk (fun _ => next_func t.get)

/-! ## Python's builtin `sorted` -/

/-- The boolean key comparison used by `sorted(xs, key=key)`. -/
def keyLe (key : α → K) [LinearOrder K] : α → α → Bool :=
  fun a b => decide (key a ≤ key b)

/-- Python's `sorted(xs, key=key, reverse=rev)`: stable ascending sort on
keys; `reverse=True` reverses the input before and the output after the
stable ascending sort (CPython's `listsort` scheme). -/
def pysortedKey (key : α → K) [LinearOrder K] (rev : Bool) (xs : List α) :
    List α :=
  if rev then (List.mergeSort xs.reverse (keyLe key)).reverse
  else List.mergeSort xs (keyLe key)

/-- Python's `sorted(xs, reverse=rev)` with no key: elements are compared
directly by their natural order. -/
def pysortedNat [LinearOrder α] (rev : Bool) (xs : List α) : List α :=
  if rev then (List.mergeSort xs.reverse (fun a b => decide (a ≤ b))).reverse
  else List.mergeSort xs (fun a b => decide (a ≤ b))

/-! ## The pure embedding of `EagerStream` (src/pythonstream.py:112-166) -/

/-- `EagerStream`: stores its materialized contents. -/
structure EagerStream (α : Type) : Type where
  contents : List α

/-- `EagerStream.__init__`: `deepcopy([c for c in contents])`; on pure
values the copy is the identity. -/
def EagerStream.ofContents (contents : List α) : EagerStream α :=
  EagerStream.mk contents

/-- `EagerStream.as_list`: a (deep copy of) the stored contents. -/
def EagerStream.as_list (s : EagerStream α) : List α :=
  s.contents

/-- `EagerStream.map`. -/
def EagerStream.map (s : EagerStream α) (func : α → β) : EagerStream β :=
  EagerStream.ofContents (s.contents.map func)

/-- `EagerStream.flat_map`: apply `func` to every element and flatten the
`as_list` of each resulting stream, in element order. -/
def EagerStream.flat_map (s : EagerStream α) (func : α → EagerStream β) :
    EagerStream β :=
  EagerStream.ofContents ((s.contents.map (fun c => (func c).as_list)).flatten)

/-- `EagerStream.__add__` restricted to genuine stream arguments (for which
the `assert isinstance(other, Stream)` passes); the dynamic version with a
possibly-non-stream argument appears further below. -/
def EagerStream.add (s other : EagerStream α) : EagerStream α :=
  EagerStream.ofContents (s.as_list ++ other.as_list)

/-- `EagerStream.concat`: delegates to `self + other`. -/
def EagerStream.concat (s other : EagerStream α) : EagerStream α :=
  s.add other

/-- `EagerStream.filter`. -/
def EagerStream.filter (s : EagerStream α) (predicate : α → Bool) :
    EagerStream α :=
  EagerStream.ofContents (s.contents.filter predicate)

/-- `EagerStream.sorted` with a key. -/
def EagerStream.sortedKey (s : EagerStream α) (key : α → K) [LinearOrder K]
    (rev : Bool) : EagerStream α :=
  EagerStream.ofContents (pysortedKey key rev s.contents)

/-- `EagerStream.sorted` without a key (the `key is None` branch). -/
def EagerStream.sortedNat [LinearOrder α] (s : EagerStream α) (rev : Bool) :
    EagerStream α :=
  EagerStream.ofContents (pysortedNat rev s.contents)

/-- `EagerStream.reduce`: `functools.reduce(func, contents, initial)`,
a left fold. -/
def EagerStream.reduce (s : EagerStream α) (func : β → α → β) (initial : β) :
    β :=
  s.contents.foldl func initial

/-- `EagerStream.reverse`: `contents[::-1]`. -/
def EagerStream.reverse (s : EagerStream α) : EagerStream α :=
  EagerStream.ofContents s.contents.reverse

/-- `EagerStream.find_first`: first element satisfying the predicate. -/
def EagerStream.find_first (s : EagerStream α) (predicate : α → Bool) :
    Option α :=
  s.contents.find? predicate

/-- `EagerStream.get_first`. -/
def EagerStream.get_first (s : EagerStream α) : Option α :=
  s.contents.head?

/-- `EagerStream.get_last`. -/
def EagerStream.get_last (s : EagerStream α) : Option α :=
  s.contents.getLast?

/-- `Stream.count` as inherited by `EagerStream`:
`len(self)` = `len(self.as_list())`. -/
def EagerStream.count (s : EagerStream α) : Nat :=
  s.as_list.length

/-! ## The pure embedding of `LazyStream` (src/pythonstream.py:195-306) -/

/-- `LazyStream`: wraps a `_Transformation`. -/
structure LazyStream (α : Type) : Type where
  transformation : Transformation α

/-- `LazyStream.__init__` on a list: the identity transformation whose
closure returns (a deep copy of) the captured list; on pure values the
copy is the identity. -/
def LazyStream.ofList (initial_contents : List α) : LazyStream α :=
  LazyStream.mk (Transformation.mk (fun _ => initial_contents))

/-- `LazyStream.__chain_transformation`. -/
def LazyStream.chain (s : LazyStream α) (transform_function : List α → List β) :
    LazyStream β :=
  LazyStream.mk (s.transformation.andThen transform_function)

/-- `LazyStream.as_list`: force the whole pipeline. -/
def LazyStream.as_list (s : LazyStream α) : List α :=
  s.transformation.get

/-- `LazyStream.map`. -/
def LazyStream.map (s : LazyStream α) (func : α → β) : LazyStream β :=
  s.chain (fun inputs => inputs.map func)

/-- `LazyStream.flat_map`. -/
def LazyStream.flat_map (s : LazyStream α) (func : α → LazyStream β) :
    LazyStream β :=
  s.chain (fun inputs => (inputs.map (fun item => (func item).as_list)).flatten)

/-- `LazyStream.concat` restricted to a genuine stream argument: the chained
closure materializes `inputs` and appends `other.as_list()`, read when the
pipeline is evaluated. -/
def LazyStream.concat (s other : LazyStream α) : LazyStream α :=
  s.chain (fun inputs => inputs ++ other.as_list)

/-- `LazyStream.filter`. -/
def LazyStream.filter (s : LazyStream α) (predicate : α → Bool) :
    LazyStream α :=
  s.chain (fun inputs => inputs.filter predicate)

/-- `LazyStream.sorted` with a key. -/
def LazyStream.sortedKey (s : LazyStream α) (key : α → K) [LinearOrder K]
    (rev : Bool) : LazyStream α :=
  s.chain (fun inputs => pysortedKey key rev inputs)

/-- `LazyStream.sorted` without a key (the `key is None` branch). -/
def LazyStream.sortedNat [LinearOrder α] (s : LazyStream α) (rev : Bool) :
    LazyStream α :=
  s.chain (fun inputs => pysortedNat rev inputs)

/-- `LazyStream.reverse`: `[item for item in inputs][::-1]`. -/
def LazyStream.reverse (s : LazyStream α) : LazyStream α :=
  s.chain (fun inputs => inputs.reverse)

/-- `LazyStream.reduce`: left fold over the evaluated contents. -/
def LazyStream.reduce (s : LazyStream α) (func : β → α → β) (initial : β) :
    β :=
  s.as_list.foldl func initial

/-- `LazyStream.find_first`. -/
def LazyStream.find_first (s : LazyStream α) (predicate : α → Bool) :
    Option α :=
  s.as_list.find? predicate

/-- `LazyStream.get_first`. -/
def LazyStream.get_first (s : LazyStream α) : Option α :=
  s.as_list.head?

/-- `LazyStream.get_last`. -/
def LazyStream.get_last (s : LazyStream α) : Option α :=
  s.as_list.getLast?

/-- `Stream.count` as inherited by `LazyStream`:
`len(self)` = `len(self.as_list())`. -/
def LazyStream.count (s : LazyStream α) : Nat :=
  s.as_list.length

/-! ## The `Except` embedding: evaluation-time failures

The same closure structure, with each closure now returning
`Except ε (List α)`: a user callback may raise, and the failure propagates
to whoever forces the pipeline.  The intermediate operations themselves
remain plain (total) functions from streams to streams, mirroring the fact
that their Python bodies never invoke a callback. -/

/-- `_Transformation` whose forcing may raise. -/
structure TransformationE (ε α : Type) : Type where
  result_getter : Unit → Except ε (List α)

/-- `_Transformation.get` in the `Except` embedding. -/
def TransformationE.get (t : TransformationE ε α) : Except ε (List α) :=
  t.result_getter ()

/-- `_Transformation.then` in the `Except` embedding: forcing the composed
closure first forces `self` (propagating its failure), then runs
`next_func` on the intermediate result.  Composition itself evaluates
nothing. -/
def TransformationE.andThen (t : TransformationE ε α)
    (next_func : List α → Except ε (List β)) : TransformationE ε β :=
  TransformationE.mk (fun _ =>
    match t.get with
    | Except.error e => Except.error e
    | Except.ok intermediate => next_func intermediate)

/-- `LazyStream` in the `Except` embedding. -/
structure LazyStreamE (ε α : Type) : Type where
  transformation : TransformationE ε α

/-- `LazyStream.__init__` on a list, `Except` embedding. -/
def LazyStreamE.ofList (initial_contents : List α) : LazyStreamE ε α :=
  LazyStreamE.mk (TransformationE.mk (fun _ => Except.ok initial_contents))

/-- `LazyStream.__chain_transformation`, `Except` embedding. -/
def LazyStreamE.chainE (s : LazyStreamE ε α)
    (transform_function : List α → Except ε (List β)) : LazyStreamE ε β :=
  LazyStreamE.mk (s.transformation.andThen transform_function)

/-- `LazyStream.as_list`, `Except` embedding: forcing the pipeline may
surface a callback failure. -/
def LazyStreamE.as_listE (s : LazyStreamE ε α) : Except ε (List α) :=
  s.transformation.get

/-- Materializing `map(func, inputs)` when each call of `func` may raise:
the first failure (in element order) propagates. -/
def mapExcept (func : α → Except ε β) : List α → Except ε (List β)
  | [] => Except.ok []
  | x :: xs =>
    match func x with
    | Except.error e => Except.error e
    | Except.ok y =>
      match mapExcept func xs with
      | Except.error e => Except.error e
      | Except.ok ys => Except.ok (y :: ys)

/-- Materializing `filter(predicate, inputs)` when each call of the
predicate may raise. -/
def filterExcept (predicate : α → Except ε Bool) :
    List α → Except ε (List α)
  | [] => Except.ok []
  | x :: xs =>
    match predicate x with
    | Except.error e => Except.error e
    | Except.ok b =>
      match filterExcept predicate xs with
      | Except.error e => Except.error e
      | Except.ok ys => Except.ok (if b then x :: ys else ys)

/-- Materializing the `flat_map` list comprehension: for each element,
`func` is called (it may raise), the resulting stream is materialized (its
pipeline may raise), and the outputs are concatenated in element order. -/
def flatMapExcept (func : α → Except ε (LazyStreamE ε β)) :
    List α → Except ε (List β)
  | [] => Except.ok []
  | x :: xs =>
    match func x with
    | Except.error e => Except.error e
    | Except.ok s =>
      match s.as_listE with
      | Except.error e => Except.error e
      | Except.ok ys =>
        match flatMapExcept func xs with
        | Except.error e => Except.error e
        | Except.ok rest => Except.ok (ys ++ rest)

/-- `sorted(inputs, key=key, reverse=rev)` when the key function may raise:
CPython first computes every key in element order (decorating), then
stably sorts on the precomputed keys. -/
def sortedKeyExcept (key : α → Except ε K) [LinearOrder K] (rev : Bool)
    (xs : List α) : Except ε (List α) :=
  match mapExcept (fun x =>
      match key x with
      | Except.error e => Except.error e
      | Except.ok k => Except.ok (x, k)) xs with
  | Except.error e => Except.error e
  | Except.ok pairs => Except.ok
      ((if rev then
          (List.mergeSort pairs.reverse (fun a b => decide (a.2 ≤ b.2))).reverse
        else
          List.mergeSort pairs (fun a b => decide (a.2 ≤ b.2))).map Prod.fst)

/-- `LazyStream.map`, `Except` embedding. -/
def LazyStreamE.mapE (s : LazyStreamE ε α) (func : α → Except ε β) :
    LazyStreamE ε β :=
  s.chainE (fun inputs => mapExcept func inputs)

/-- `LazyStream.filter`, `Except` embedding. -/
def LazyStreamE.filterE (s : LazyStreamE ε α)
    (predicate : α → Except ε Bool) : LazyStreamE ε α :=
  s.chainE (fun inputs => filterExcept predicate inputs)

/-- `LazyStream.flat_map`, `Except` embedding. -/
def LazyStreamE.flat_mapE (s : LazyStreamE ε α)
    (func : α → Except ε (LazyStreamE ε β)) : LazyStreamE ε β :=
  s.chainE (fun inputs => flatMapExcept func inputs)

/-- `LazyStream.sorted` with a possibly-raising key, `Except` embedding. -/
def LazyStreamE.sortedKeyE (s : LazyStreamE ε α) (key : α → Except ε K)
    [LinearOrder K] (rev : Bool) : LazyStreamE ε α :=
  s.chainE (fun inputs => sortedKeyExcept key rev inputs)

/-- `LazyStream.reverse`, `Except` embedding. -/
def LazyStreamE.reverseE (s : LazyStreamE ε α) : LazyStreamE ε α :=
  s.chainE (fun inputs => Except.ok inputs.reverse)

/-- `LazyStream.concat` with a genuine stream argument, `Except` embedding:
the chained closure materializes the other stream when evaluated. -/
def LazyStreamE.concatE (s other : LazyStreamE ε α) : LazyStreamE ε α :=
  s.chainE (fun inputs =>
    match other.as_listE with
    | Except.error e => Except.error e
    | Except.ok tail => Except.ok (inputs ++ tail))

/-! ## Dynamic typing: streams vs. arbitrary Python values -/

/-- A pure lazy pipeline viewed in the `Except` embedding (its closure
cannot fail). -/
def LazyStream.toE (s : LazyStream α) : LazyStreamE ε α :=
  LazyStreamE.mk (TransformationE.mk (fun _ => Except.ok s.as_list))

/-- A `Stream` instance: either variant. -/
inductive StreamObj (α : Type) : Type where
  | eagerS : EagerStream α → StreamObj α
  | lazyS : LazyStream α → StreamObj α

/-- `as_list` on whichever variant. -/
def StreamObj.as_list : StreamObj α → List α
  | StreamObj.eagerS s => s.as_list
  | StreamObj.lazyS s => s.as_list

/-- A Python value that may be passed where a stream is expected: either a
genuine `Stream` instance or a plain (non-stream) list. -/
inductive PyObj (α : Type) : Type where
  | streamO : StreamObj α → PyObj α
  | listO : List α → PyObj α

/-- The attribute access `other.as_list()`: succeeds on `Stream` instances,
raises `AttributeError` on a plain list. -/
def PyObj.as_listAttr : PyObj α → Except PyErr (List α)
  | PyObj.streamO s => Except.ok s.as_list
  | PyObj.listO _ => Except.error PyErr.attributeError

/-- `EagerStream.__add__`: runs `assert isinstance(other, Stream)` at call
time; on success the concatenated eager stream is built immediately. -/
def EagerStream.addPy (s : EagerStream α) :
    PyObj α → Except PyErr (EagerStream α)
  | PyObj.streamO t =>
      Except.ok (EagerStream.ofContents (s.as_list ++ t.as_list))
  | PyObj.listO _ => Except.error PyErr.assertionError

/-- `EagerStream.concat`: `return self + other`, so the same immediate
check. -/
def EagerStream.concatPy (s : EagerStream α) (other : PyObj α) :
    Except PyErr (EagerStream α) :=
  s.addPy other

/-- `LazyStream.concat` with an arbitrary operand: the method body performs
no isinstance check — it only chains a closure that, when the pipeline is
evaluated, materializes the inputs and calls `other.as_list()`. -/
def LazyStream.concatPy (s : LazyStream α) (other : PyObj α) :
    LazyStreamE PyErr α :=
  (LazyStream.toE s).chainE (fun inputs =>
    match other.as_listAttr with
    | Except.error e => Except.error e
    | Except.ok tail => Except.ok (inputs ++ tail))

/-- The call `s.concat(other)` seen in the construction-time error monad:
the body of `LazyStream.concat` contains no check and no callback
invocation, so the call itself always returns a stream, whatever the
operand. -/
def LazyStream.concatPyCall (s : LazyStream α) (other : PyObj α) :
    Except PyErr (LazyStreamE PyErr α) :=
  Except.ok (s.concatPy other)

/-- `LazyStream.__add__`: runs `assert isinstance(other, Stream)` at call
time, then delegates to `concat`. -/
def LazyStream.addPy (s : LazyStream α) (other : PyObj α) :
    Except PyErr (LazyStreamE PyErr α) :=
  match other with
  | PyObj.streamO _ => Except.ok (s.concatPy other)
  | PyObj.listO _ => Except.error PyErr.assertionError

/-- Whether a call returned normally. -/
def exceptIsOk : Except ε α → Bool
  | Except.ok _ => true
  | Except.error _ => false

/-- `Stream.__eq__`: the `isinstance` guard comes first and short-circuits
to `False`; only for a genuine `Stream` are the two materialized lists
compared. -/
def streamEqPy [DecidableEq α] (s : StreamObj α) : PyObj α → Bool
  | PyObj.streamO t => decide (s.as_list = t.as_list)
  | PyObj.listO _ => false

/-! ## Construction from arbitrary iterables -/

/-- A finite, ordered Python iterable handed to a stream constructor. -/
inductive PyIterable (α : Type) : Type where
  | pylist : List α → PyIterable α
  | pytuple : List α → PyIterable α
  | pygen : List α → PyIterable α

/-- The iteration order of the iterable. -/
def PyIterable.elems : PyIterable α → List α
  | PyIterable.pylist xs => xs
  | PyIterable.pytuple xs => xs
  | PyIterable.pygen xs => xs

/-- `EagerStream.__init__` accepts any iterable:
`deepcopy([c for c in contents])`. -/
def EagerStream.ofIterable (contents : PyIterable α) : EagerStream α :=
  EagerStream.ofContents contents.elems

/-- `LazyStream.__init__` on an iterable (public construction path): a
`list` installs the identity transformation; any other iterable falls
through both `isinstance` tests to `assert False`. -/
def LazyStream.initPy : PyIterable α → Except PyErr (LazyStream α)
  | PyIterable.pylist xs => Except.ok (LazyStream.ofList xs)
  | PyIterable.pytuple _ => Except.error PyErr.assertionError
  | PyIterable.pygen _ => Except.error PyErr.assertionError

/-- Materialize the result of a possibly-failed construction. -/
def exceptAsList (r : Except PyErr (LazyStream α)) : Except PyErr (List α) :=
  match r with
  | Except.error e => Except.error e
  | Except.ok s => Except.ok s.as_list

/-! ## Mutable sources: when is the source collection read?

A Python list variable is a reference.  `MutSrc α` gives the contents an
external observer would read from the referenced list at each (discrete)
instant; external code mutating the list is what makes the family
non-constant. -/

/-- Contents over time of a mutable Python list. -/
def MutSrc (α : Type) : Type := Nat → List α

/-- `EagerStream.__init__` run at instant `t0` against a mutable source:
`deepcopy([c for c in contents])` reads the referenced list exactly once,
at construction time. -/
def EagerStream.ofRefAt (src : MutSrc α) (t0 : Nat) : EagerStream α :=
  EagerStream.ofContents (src t0)

/-- A transformation closure over a mutable source: forcing it at instant
`now` reads whatever the closed-over references hold at `now`. -/
structure TransformationMut (α : Type) : Type where
  result_getter : Nat → List α

/-- `_Transformation.get`, evaluated at instant `now`. -/
def TransformationMut.getAt (t : TransformationMut α) (now : Nat) : List α :=
  t.result_getter now

/-- `LazyStream` holding a pipeline over a mutable source. -/
structure LazyStreamMut (α : Type) : Type where
  transformation : TransformationMut α

/-- `LazyStream.__init__` on a mutable list: the `identity` closure captures
the caller's list BY REFERENCE and applies `deepcopy` to it only when the
closure runs, i.e. at evaluation time. -/
def LazyStreamMut.ofRef (initial_contents : MutSrc α) : LazyStreamMut α :=
  LazyStreamMut.mk (TransformationMut.mk (fun now => initial_contents now))

/-- `LazyStream.__chain_transformation` over a mutable source. -/
def LazyStreamMut.chainMut (s : LazyStreamMut α)
    (transform_function : List α → List β) : LazyStreamMut β :=
  LazyStreamMut.mk (TransformationMut.mk
    (fun now => transform_function (s.transformation.getAt now)))

/-- `LazyStream.map` over a mutable source. -/
def LazyStreamMut.mapMut (s : LazyStreamMut α) (func : α → β) :
    LazyStreamMut β :=
  s.chainMut (fun inputs => inputs.map func)

/-- `LazyStream.as_list`, with the terminal operation running at instant
`now`. -/
def LazyStreamMut.as_listAt (s : LazyStreamMut α) (now : Nat) : List α :=
  s.transformation.getAt now

/-- Counterexample source: the referenced list holds `[1]` at instant 0
(construction time) and `[2]` from instant 1 on (after an external
mutation). -/
def mutatedSrc : MutSrc Int := fun t => if t = 0 then [1] else [2]

/-! ## Chains of intermediate operations (for the parity claim)

One pipeline step together with its callbacks.  A `flat_map` callback is
recorded by the materialized contents of the stream it returns — which is
all either variant ever reads of it — and a `concat` operand by its
materialized contents. -/

/-- One intermediate operation. -/
inductive StreamOp (α : Type) [LinearOrder α] : Type where
  | opMap : (α → α) → StreamOp α
  | opFilter : (α → Bool) → StreamOp α
  | opFlatMap : (α → List α) → StreamOp α
  | opSortedKey : (α → α) → Bool → StreamOp α
  | opSortedNat : Bool → StreamOp α
  | opReverse : StreamOp α
  | opConcat : List α → StreamOp α

/-- Run one operation on an eager stream. -/
def EagerStream.applyOp [LinearOrder α] (s : EagerStream α) :
    StreamOp α → EagerStream α
  | StreamOp.opMap f => s.map f
  | StreamOp.opFilter p => s.filter p
  | StreamOp.opFlatMap g => s.flat_map (fun x => EagerStream.ofContents (g x))
  | StreamOp.opSortedKey key rev => s.sortedKey key rev
  | StreamOp.opSortedNat rev => s.sortedNat rev
  | StreamOp.opReverse => s.reverse
  | StreamOp.opConcat other => s.concat (EagerStream.ofContents other)

/-- Run a whole chain on an eager stream, first-built-first-executed. -/
def EagerStream.applyOps [LinearOrder α] (s : EagerStream α) :
    List (StreamOp α) → EagerStream α
  | [] => s
  | op :: ops => (s.applyOp op).applyOps ops

/-- Run one operation on a lazy stream. -/
def LazyStream.applyOp [LinearOrder α] (s : LazyStream α) :
    StreamOp α → LazyStream α
  | StreamOp.opMap f => s.map f
  | StreamOp.opFilter p => s.filter p
  | StreamOp.opFlatMap g => s.flat_map (fun x => LazyStream.ofList (g x))
  | StreamOp.opSortedKey key rev => s.sortedKey key rev
  | StreamOp.opSortedNat rev => s.sortedNat rev
  | StreamOp.opReverse => s.reverse
  | StreamOp.opConcat other => s.concat (LazyStream.ofList other)

/-- Run a whole chain on a lazy stream, first-built-first-executed. -/
def LazyStream.applyOps [LinearOrder α] (s : LazyStream α) :
    List (StreamOp α) → LazyStream α
  | [] => s
  | op :: ops => (s.applyOp op).applyOps ops

/-! ## Helper lemmas -/

@[simp] theorem EagerStream.as_list_ofContents (xs : List α) :
    (EagerStream.ofContents xs).as_list = xs := rfl

@[simp] theorem LazyStream.as_list_ofList (xs : List α) :
    (LazyStream.ofList xs).as_list = xs := rfl

@[simp] theorem LazyStream.as_list_chain (s : LazyStream α)
    (f : List α → List β) : (s.chain f).as_list = f s.as_list := rfl

@[simp] theorem EagerStream.map_as_list (s : EagerStream α) (f : α → β) :
    (s.map f).as_list = s.as_list.map f := rfl

@[simp] theorem LazyStream.as_list_map (s : LazyStream α) (f : α → β) :
    (s.map f).as_list = s.as_list.map f := rfl

@[simp] theorem EagerStream.filter_as_list (s : EagerStream α) (p : α → Bool) :
    (s.filter p).as_list = s.as_list.filter p := rfl

@[simp] theorem LazyStream.as_list_filter (s : LazyStream α) (p : α → Bool) :
    (s.filter p).as_list = s.as_list.filter p := rfl

@[simp] theorem EagerStream.flat_map_as_list (s : EagerStream α)
    (g : α → EagerStream β) :
    (s.flat_map g).as_list = (s.as_list.map (fun c => (g c).as_list)).flatten :=
  rfl

@[simp] theorem LazyStream.as_list_flat_map (s : LazyStream α)
    (g : α → LazyStream β) :
    (s.flat_map g).as_list = (s.as_list.map (fun c => (g c).as_list)).flatten :=
  rfl

@[simp] theorem EagerStream.sortedKey_as_list (s : EagerStream α) (key : α → K)
    [LinearOrder K] (rev : Bool) :
    (s.sortedKey key rev).as_list = pysortedKey key rev s.as_list := rfl

@[simp] theorem LazyStream.as_list_sortedKey (s : LazyStream α) (key : α → K)
    [LinearOrder K] (rev : Bool) :
    (s.sortedKey key rev).as_list = pysortedKey key rev s.as_list := rfl

@[simp] theorem EagerStream.sortedNat_as_list [LinearOrder α]
    (s : EagerStream α) (rev : Bool) :
    (s.sortedNat rev).as_list = pysortedNat rev s.as_list := rfl

@[simp] theorem LazyStream.as_list_sortedNat [LinearOrder α]
    (s : LazyStream α) (rev : Bool) :
    (s.sortedNat rev).as_list = pysortedNat rev s.as_list := rfl

@[simp] theorem EagerStream.reverse_as_list (s : EagerStream α) :
    s.reverse.as_list = s.as_list.reverse := rfl

@[simp] theorem LazyStream.as_list_reverse (s : LazyStream α) :
    s.reverse.as_list = s.as_list.reverse := rfl

@[simp] theorem EagerStream.concat_as_list (s other : EagerStream α) :
    (s.concat other).as_list = s.as_list ++ other.as_list := rfl

@[simp] theorem LazyStream.as_list_concat (s other : LazyStream α) :
    (s.concat other).as_list = s.as_list ++ other.as_list := rfl

theorem keyLe_trans (key : α → K) [LinearOrder K] :
    ∀ a b c : α, keyLe key a b → keyLe key b c → keyLe key a c := by
  intro a b c h1 h2
  simp only [keyLe, decide_eq_true_eq] at h1 h2 ⊢
  exact le_trans h1 h2

theorem keyLe_total (key : α → K) [LinearOrder K] :
    ∀ a b : α, keyLe key a b || keyLe key b a := by
  intro a b
  simp only [keyLe, Bool.or_eq_true, decide_eq_true_eq]
  exact le_total (key a) (key b)

/-- The reverse/sort/reverse scheme permutes its input. -/
theorem revMergeSort_perm (le : α → α → Bool) (xs : List α) :
    (List.mergeSort xs.reverse le).reverse ~ xs :=
  ((List.reverse_perm _).trans (List.mergeSort_perm _ le)).trans
    (List.reverse_perm xs)

/-- The reverse/sort/reverse scheme yields a descending list. -/
theorem revMergeSort_pairwise (le : α → α → Bool)
    (htrans : ∀ a b c : α, le a b → le b c → le a c)
    (htotal : ∀ a b : α, le a b || le b a) (xs : List α) :
    ((List.mergeSort xs.reverse le).reverse).Pairwise (fun a b => le b a) := by
  rw [List.pairwise_reverse]
  exact List.sorted_mergeSort htrans htotal xs.reverse

/-- The reverse/sort/reverse scheme is stable: a pair that appears in order
in the input and satisfies the flipped comparison (in particular any tied
pair) appears in the same order in the output. -/
theorem revMergeSort_stable (le : α → α → Bool)
    (htrans : ∀ a b c : α, le a b → le b c → le a c)
    (htotal : ∀ a b : α, le a b || le b a) {xs : List α} {a b : α}
    (h : [a, b] <+ xs) (hba : le b a) :
    [a, b] <+ (List.mergeSort xs.reverse le).reverse := by
  have h1 : [b, a] <+ xs.reverse := by simpa using h.reverse
  have h2 := List.pair_sublist_mergeSort htrans htotal hba h1
  simpa using h2.reverse

/-- One step of the eager/lazy parity argument: if the two variants hold
the same materialized contents, they still do after any one intermediate
operation with the same callbacks. -/
theorem applyOp_parity [LinearOrder α] (e : EagerStream α) (l : LazyStream α)
    (h : e.as_list = l.as_list) (op : StreamOp α) :
    (e.applyOp op).as_list = (l.applyOp op).as_list := by
  cases op <;> simp [EagerStream.applyOp, LazyStream.applyOp, h]

/-- The parity argument extended along a whole chain. -/
theorem applyOps_parity [LinearOrder α] (e : EagerStream α) (l : LazyStream α)
    (h : e.as_list = l.as_list) (ops : List (StreamOp α)) :
    (e.applyOps ops).as_list = (l.applyOps ops).as_list := by
  induction ops generalizing e l with
  | nil => exact h
  | cons op ops ih =>
      exact ih (e.applyOp op) (l.applyOp op) (applyOp_parity e l h op)

/-! ## Claim C1 -/

/-- C1. Identity law: materializing a lazy stream freshly built from a
finite sequence `S` (identity pipeline) returns exactly `S`. -/
theorem lazy_identity_law (S : List α) :
    (LazyStream.ofList S).as_list = S := by
  rfl

/-! ## Claim C2 -/

/-- C2. Map fusion: chaining two `map` steps materializes to the same list
as a single `map` of the composition, applied first-built-first-executed,
for the lazy and the eager variant alike. -/
theorem map_fusion (S : List α) (f : α → β) (g : β → γ) :
    (((LazyStream.ofList S).map f).map g).as_list
        = ((LazyStream.ofList S).map (fun x => g (f x))).as_list
      ∧ (((EagerStream.ofContents S).map f).map g).as_list
        = ((EagerStream.ofContents S).map (fun x => g (f x))).as_list := by
  constructor <;> simp [List.map_map, Function.comp]

/-! ## Claim C3 -/

/-- C3. Concatenation law: for both variants, concatenating a stream over
`S1` with a stream over `S2` (via `concat`, or via `+` for the eager
variant) materializes to `S1 ++ S2`. -/
theorem concat_law (S1 S2 : List α) :
    ((LazyStream.ofList S1).concat (LazyStream.ofList S2)).as_list = S1 ++ S2
      ∧ ((EagerStream.ofContents S1).concat (EagerStream.ofContents S2)).as_list
        = S1 ++ S2
      ∧ ((EagerStream.ofContents S1).add (EagerStream.ofContents S2)).as_list
        = S1 ++ S2 := by
  exact ⟨rfl, rfl, rfl⟩

/-! ## Claim C4 -/

/-- C4, counterexample.  The claim asserts that `reverse=True` yields the
reversal of the final sorted order, reversing tied elements as well.  On
the tied input `[(1, 10), (1, 20)]` sorted by first component, the code
(Python's builtin `sorted`) keeps ties in their original order, so the
descending result is NOT the reversal of the ascending result. -/
theorem sorted_reverse_ties_cex :
    ((LazyStream.ofList [((1 : Int), (10 : Int)), (1, 20)]).sortedKey
        (fun p : Int × Int => p.1) true).as_list
      ≠ (((LazyStream.ofList [((1 : Int), (10 : Int)), (1, 20)]).sortedKey
        (fun p : Int × Int => p.1) false).as_list).reverse := by
  show pysortedKey (fun p : Int × Int => p.1) true [(1, 10), (1, 20)]
      ≠ (pysortedKey (fun p : Int × Int => p.1) false [(1, 10), (1, 20)]).reverse
  have h1 : pysortedKey (fun p : Int × Int => p.1) false [(1, 10), (1, 20)]
      = [(1, 10), (1, 20)] := by
    simp only [pysortedKey, if_neg Bool.false_ne_true]
    exact List.mergeSort_of_sorted (by decide)
  have h2 : pysortedKey (fun p : Int × Int => p.1) true [(1, 10), (1, 20)]
      = [(1, 10), (1, 20)] := by
    simp only [pysortedKey, if_pos rfl, List.reverse_cons, List.reverse_nil,
      List.nil_append, List.cons_append]
    rw [List.mergeSort_of_sorted (by decide)]
    decide
  rw [h1, h2]
  decide

/-- C4, amended.  `sorted(key, reverse)` (for both stream variants, with or
without a key) materializes a permutation of the input that is sorted by
key — ascending for `reverse=False`, descending for `reverse=True` — and
stable in BOTH directions: tied elements keep their original relative
order even when `reverse=True` (a stable sort under the flipped
comparator), rather than being reversed. -/
theorem sorted_contract [LinearOrder α] (xs : List α) (key : α → K)
    [LinearOrder K] (rev : Bool) :
    ((LazyStream.ofList xs).sortedKey key rev).as_list = pysortedKey key rev xs
    ∧ ((EagerStream.ofContents xs).sortedKey key rev).as_list
        = pysortedKey key rev xs
    ∧ ((LazyStream.ofList xs).sortedNat rev).as_list = pysortedNat rev xs
    ∧ ((EagerStream.ofContents xs).sortedNat rev).as_list = pysortedNat rev xs
    ∧ pysortedKey key rev xs ~ xs
    ∧ pysortedNat rev xs ~ xs
    ∧ (rev = false →
        (pysortedKey key rev xs).Pairwise (fun a b => key a ≤ key b)
        ∧ (pysortedNat rev xs).Pairwise (fun a b : α => a ≤ b))
    ∧ (rev = true →
        (pysortedKey key rev xs).Pairwise (fun a b => key b ≤ key a)
        ∧ (pysortedNat rev xs).Pairwise (fun a b : α => b ≤ a))
    ∧ (∀ a b : α, [a, b] <+ xs → key a = key b →
        [a, b] <+ pysortedKey key rev xs)
    ∧ (∀ a b : α, [a, b] <+ xs → a ≤ b → b ≤ a →
        [a, b] <+ pysortedNat rev xs) := by
  have hnat : pysortedNat rev xs = pysortedKey (fun x : α => x) rev xs := rfl
  refine ⟨rfl, rfl, rfl, rfl, ?_, ?_, ?_, ?_, ?_, ?_⟩
  · cases rev with
    | false => simpa [pysortedKey] using List.mergeSort_perm xs (keyLe key)
    | true => simpa [pysortedKey] using revMergeSort_perm (keyLe key) xs
  · rw [hnat]
    cases rev with
    | false =>
        simpa [pysortedKey] using List.mergeSort_perm xs (keyLe (fun x : α => x))
    | true =>
        simpa [pysortedKey] using revMergeSort_perm (keyLe (fun x : α => x)) xs
  · rintro rfl
    constructor
    · refine List.Pairwise.imp ?_
        (List.sorted_mergeSort (keyLe_trans key) (keyLe_total key) xs)
      intro a b h
      simpa [keyLe] using h
    · rw [hnat]
      refine List.Pairwise.imp ?_
        (List.sorted_mergeSort (keyLe_trans (fun x : α => x))
          (keyLe_total (fun x : α => x)) xs)
      intro a b h
      simpa [keyLe] using h
  · rintro rfl
    constructor
    · refine List.Pairwise.imp ?_
        (revMergeSort_pairwise (keyLe key) (keyLe_trans key) (keyLe_total key) xs)
      intro a b h
      simpa [keyLe] using h
    · rw [hnat]
      refine List.Pairwise.imp ?_
        (revMergeSort_pairwise (keyLe (fun x : α => x))
          (keyLe_trans (fun x : α => x)) (keyLe_total (fun x : α => x)) xs)
      intro a b h
      simpa [keyLe] using h
  · intro a b hsub htie
    have hab : keyLe key a b := by simp [keyLe, htie]
    have hba : keyLe key b a := by simp [keyLe, htie]
    cases rev with
    | false =>
        simpa [pysortedKey] using
          List.pair_sublist_mergeSort (keyLe_trans key) (keyLe_total key) hab hsub
    | true =>
        simpa [pysortedKey] using
          revMergeSort_stable (keyLe key) (keyLe_trans key) (keyLe_total key)
            hsub hba
  · intro a b hsub hab hba
    rw [hnat]
    have hab' : keyLe (fun x : α => x) a b := by simpa [keyLe] using hab
    have hba' : keyLe (fun x : α => x) b a := by simpa [keyLe] using hba
    cases rev with
    | false =>
        simpa [pysortedKey] using
          List.pair_sublist_mergeSort (keyLe_trans (fun x : α => x))
            (keyLe_total (fun x : α => x)) hab' hsub
    | true =>
        simpa [pysortedKey] using
          revMergeSort_stable (keyLe (fun x : α => x))
            (keyLe_trans (fun x : α => x)) (keyLe_total (fun x : α => x))
            hsub hba'

/-- C4, witness: the amended theorem applied at the concrete input `[3, 1]`
with the non-injective key `x % 2` (both elements tied) and `reverse=True`:
the tied pair keeps its original order in the descending output. -/
theorem sorted_contract_witness :
    [(3 : Int), 1] <+ pysortedKey (fun x : Int => x % 2) true [(3 : Int), 1] := by
  have h := sorted_contract [(3 : Int), 1] (fun x : Int => x % 2) true
  exact h.2.2.2.2.2.2.2.2.1 3 1 (by decide) (by decide)

/-! ## Claim C5 -/

/-- C5.  Pure deferral of failures.  In the embedding every intermediate
operation (`mapE`, `filterE`, `flat_mapE`, `sortedKeyE`, `reverseE`,
`concatE`) is a total function from streams to streams — mirroring that
the Python method bodies only wrap closures and never invoke a callback —
so a chain over eventually-failing callbacks is always constructed
successfully.  The failure surfaces exactly when a terminal operation
forces the pipeline: with a `map` callback that raises `e` on the head of
the source, the fully chained pipeline materializes to that error. -/
theorem lazy_failure_deferred {α β K ε : Type} [LinearOrder K] (x : α)
    (xs : List α) (f : α → Except ε β) (e : ε)
    (hf : f x = Except.error e) (p : β → Except ε Bool)
    (g : β → Except ε (LazyStreamE ε β)) (key : β → Except ε K) (rev : Bool)
    (other : LazyStreamE ε β) :
    ((((((LazyStreamE.ofList (x :: xs)).mapE f).filterE p).flat_mapE
        g).sortedKeyE key rev).reverseE.concatE other).as_listE
      = Except.error e := by
  simp [LazyStreamE.as_listE, LazyStreamE.ofList, LazyStreamE.chainE,
    LazyStreamE.mapE, LazyStreamE.filterE, LazyStreamE.flat_mapE,
    LazyStreamE.sortedKeyE, LazyStreamE.reverseE, LazyStreamE.concatE,
    TransformationE.get, TransformationE.andThen, mapExcept, hf]

/-- C5, witness: the deferral theorem applied at a concrete chain whose
`map` callback always raises: building the chain type-checks (is a value)
and materializing it yields exactly the callback's error. -/
theorem lazy_failure_deferred_witness :
    ((((((LazyStreamE.ofList ((1 : Int) :: [2])).mapE
            (fun _ : Int => (Except.error 5 : Except Nat Int))).filterE
            (fun _ => Except.ok true)).flat_mapE
            (fun y => Except.ok (LazyStreamE.ofList [y]))).sortedKeyE
            (fun y => (Except.ok y : Except Nat Int)) false).reverseE.concatE
        (LazyStreamE.ofList [])).as_listE = Except.error 5 :=
  lazy_failure_deferred 1 [2] (fun _ : Int => (Except.error 5 : Except Nat Int))
    5 rfl (fun _ => Except.ok true) (fun y => Except.ok (LazyStreamE.ofList [y]))
    (fun y => (Except.ok y : Except Nat Int)) false (LazyStreamE.ofList [])

/-! ## Claim C6 -/

/-- C6, counterexample.  The source list holds `[1]` at construction time
(instant 0) and is mutated to `[2]` before the terminal operation runs
(instant 1).  The lazy stream's `identity` closure captured the list by
reference and deep-copies it only at evaluation time, so `as_list` returns
`[2]` — not the construction-time contents `[1]`. -/
theorem lazy_capture_cex :
    (LazyStreamMut.ofRef mutatedSrc).as_listAt 1 ≠ mutatedSrc 0 := by
  decide

/-- C6, amended.  The eager variant copies the source at construction, so
its materialized output reflects the construction-time contents however
the source is mutated afterwards.  The lazy variant captures the source by
reference and deep-copies it at each evaluation, so a terminal operation
reflects the source's contents at EVALUATION time: mutating the source
between construction and a terminal operation does change the result. -/
theorem capture_semantics (src : MutSrc α) (t0 now : Nat) (f : α → β) :
    (EagerStream.ofRefAt src t0).as_list = src t0
    ∧ ((EagerStream.ofRefAt src t0).map f).as_list = (src t0).map f
    ∧ (LazyStreamMut.ofRef src).as_listAt now = src now
    ∧ ((LazyStreamMut.ofRef src).mapMut f).as_listAt now = (src now).map f :=
  ⟨rfl, rfl, rfl, rfl⟩

/-! ## Claim C7 -/

/-- C7, counterexample.  Calling `concat` on a LAZY stream with a plain
(non-stream) list is NOT reported at the moment of the call: the call
returns normally (the method body performs no isinstance check), and the
failure — an `AttributeError` from `other.as_list()`, not a type/contract
assertion — surfaces only when a terminal operation evaluates the
pipeline. -/
theorem concat_nonstream_cex :
    exceptIsOk ((LazyStream.ofList ([1] : List Int)).concatPyCall
        (PyObj.listO [2])) = true
    ∧ ((LazyStream.ofList ([1] : List Int)).concatPy
        (PyObj.listO [2])).as_listE = Except.error PyErr.attributeError :=
  ⟨rfl, rfl⟩

/-- C7, amended.  Combining a stream with a non-stream `x` is reported
immediately as an assertion failure for `+` on either variant and for the
eager `concat` (which delegates to `+`); the LAZY `concat`, however,
performs no check at call time — the call returns a stream, and the
failure surfaces as an `AttributeError` only when a terminal operation
evaluates the pipeline. -/
theorem combine_nonstream_contract (s : EagerStream α) (l : LazyStream α)
    (xs : List α) :
    s.addPy (PyObj.listO xs) = Except.error PyErr.assertionError
    ∧ s.concatPy (PyObj.listO xs) = Except.error PyErr.assertionError
    ∧ l.addPy (PyObj.listO xs) = Except.error PyErr.assertionError
    ∧ exceptIsOk (l.concatPyCall (PyObj.listO xs)) = true
    ∧ (l.concatPy (PyObj.listO xs)).as_listE
        = Except.error PyErr.attributeError :=
  ⟨rfl, rfl, rfl, rfl, rfl⟩

/-! ## Claim C8 -/

/-- C8.  Eager/lazy behavioral parity: running one and the same chain of
intermediate operations (same callbacks) over the same source on an eager
and on a lazy stream yields equal materialized contents, equal results for
every terminal operation (`reduce`, `find_first`, `get_first`, `get_last`,
`as_list`, `count`), and the two results compare equal under `==` in both
directions. -/
theorem eager_lazy_parity [LinearOrder α] [DecidableEq α] (S : List α)
    (ops : List (StreamOp α)) (f : β → α → β) (init : β) (p : α → Bool) :
    ((EagerStream.ofContents S).applyOps ops).as_list
        = ((LazyStream.ofList S).applyOps ops).as_list
    ∧ ((EagerStream.ofContents S).applyOps ops).reduce f init
        = ((LazyStream.ofList S).applyOps ops).reduce f init
    ∧ ((EagerStream.ofContents S).applyOps ops).find_first p
        = ((LazyStream.ofList S).applyOps ops).find_first p
    ∧ ((EagerStream.ofContents S).applyOps ops).get_first
        = ((LazyStream.ofList S).applyOps ops).get_first
    ∧ ((EagerStream.ofContents S).applyOps ops).get_last
        = ((LazyStream.ofList S).applyOps ops).get_last
    ∧ ((EagerStream.ofContents S).applyOps ops).count
        = ((LazyStream.ofList S).applyOps ops).count
    ∧ streamEqPy (StreamObj.eagerS ((EagerStream.ofContents S).applyOps ops))
        (PyObj.streamO (StreamObj.lazyS ((LazyStream.ofList S).applyOps ops)))
        = true
    ∧ streamEqPy (StreamObj.lazyS ((LazyStream.ofList S).applyOps ops))
        (PyObj.streamO (StreamObj.eagerS ((EagerStream.ofContents S).applyOps ops)))
        = true := by
  have h := applyOps_parity (EagerStream.ofContents S) (LazyStream.ofList S)
    rfl ops
  refine ⟨h, ?_, ?_, ?_, ?_, ?_, ?_, ?_⟩
  · show ((EagerStream.ofContents S).applyOps ops).as_list.foldl f init
        = ((LazyStream.ofList S).applyOps ops).as_list.foldl f init
    rw [h]
  · show ((EagerStream.ofContents S).applyOps ops).as_list.find? p
        = ((LazyStream.ofList S).applyOps ops).as_list.find? p
    rw [h]
  · show ((EagerStream.ofContents S).applyOps ops).as_list.head?
        = ((LazyStream.ofList S).applyOps ops).as_list.head?
    rw [h]
  · show ((EagerStream.ofContents S).applyOps ops).as_list.getLast?
        = ((LazyStream.ofList S).applyOps ops).as_list.getLast?
    rw [h]
  · show ((EagerStream.ofContents S).applyOps ops).as_list.length
        = ((LazyStream.ofList S).applyOps ops).as_list.length
    rw [h]
  · simp [streamEqPy, StreamObj.as_list, h]
  · simp [streamEqPy, StreamObj.as_list, h]

/-! ## Claim C9 -/

/-- C9, counterexample.  Constructing a LAZY stream from a tuple — a
finite, iterable, ordered collection — fails immediately with the
constructor's `assert False` ("initial_contents must be of type list")
instead of succeeding. -/
theorem lazy_init_tuple_cex :
    LazyStream.initPy (PyIterable.pytuple ([1, 2, 3] : List Int))
      = Except.error PyErr.assertionError := rfl

/-- C9, amended.  The EAGER constructor accepts any finite iterable and
materializes exactly its elements in iteration order.  The LAZY
constructor accepts only a `list` (for which it succeeds and materializes
the elements in order); any other iterable — a tuple or a generator — is
rejected at construction time with an assertion error. -/
theorem construction_contract (c : PyIterable α) (xs : List α) :
    (EagerStream.ofIterable c).as_list = c.elems
    ∧ exceptAsList (LazyStream.initPy (PyIterable.pylist xs)) = Except.ok xs
    ∧ LazyStream.initPy (PyIterable.pytuple xs)
        = Except.error PyErr.assertionError
    ∧ LazyStream.initPy (PyIterable.pygen xs)
        = Except.error PyErr.assertionError :=
  ⟨rfl, rfl, rfl, rfl⟩

/-! ## Claim C10 -/

/-- C10.  `Stream.__eq__` with a non-stream operand: the `isinstance` guard
returns `False` outright — it is a total boolean computation that never
raises and never materializes or compares contents, even when the operand
is a plain list holding exactly the stream's elements (`xs` below ranges
over all lists, including `s.as_list` itself). -/
theorem eq_nonstream_false [DecidableEq α] (s : StreamObj α) (xs : List α) :
    streamEqPy s (PyObj.listO xs) = false := rfl

end PyStream
